import Mathlib

/-!
Verification of the luban recommendation engine against its specification.

The Go source is shallowly embedded: Go maps become association lists kept in
iteration order (Go map iteration order is unspecified, so every statement that
depends on it is quantified over the list, or the chosen order is recorded in
the accompanying doc comment); float64 data is idealized as exact arithmetic,
with stored values in ℚ (every float64 value is a rational) and computed
similarity scores in ℝ (math.Sqrt becomes Real.sqrt); Go code that can panic is
embedded in Option, with none marking the panic.
-/

/-! ## Association list helpers (Go map lookup and assignment) -/

/-- Lookup in an association list, first match wins (Go map read). -/
def lookupA {β : Type} : List (String × β) → String → Option β
  | [], _ => none
  | p :: rest, k => if p.1 = k then some p.2 else lookupA rest k

/-- Assignment in an association list: replace the value of an existing key in
place, or append the new binding (Go map write). -/
def insertA {β : Type} : List (String × β) → String → β → List (String × β)
  | [], k, v => [(k, v)]
  | p :: rest, k, v => if p.1 = k then (k, v) :: rest else p :: insertA rest k v

/-- Keys of an association list. -/
def keysOf {β : Type} (l : List (String × β)) : List String := l.map Prod.fst

theorem keysOf_cons {β : Type} (p : String × β) (l : List (String × β)) :
    keysOf (p :: l) = p.1 :: keysOf l := rfl

theorem lookupA_isSome_iff {β : Type} (l : List (String × β)) (k : String) :
    (lookupA l k).isSome = true ↔ k ∈ keysOf l := by
  induction l with
  | nil => simp [lookupA, keysOf]
  | cons p rest ih =>
    by_cases h : p.1 = k
    · subst h
      simp [lookupA, keysOf]
    · have hne : ¬ (k = p.1) := fun hk => h hk.symm
      simp [lookupA, keysOf, h, hne] at ih ⊢
      exact ih

theorem keysOf_insertA {β : Type} (l : List (String × β)) (k : String) (v : β) :
    keysOf (insertA l k v) = if k ∈ keysOf l then keysOf l else keysOf l ++ [k] := by
  induction l with
  | nil => simp [insertA, keysOf]
  | cons p rest ih =>
    by_cases h : p.1 = k
    · subst h
      simp [insertA, keysOf]
    · have hne : ¬ (k = p.1) := fun hk => h hk.symm
      have hstep : insertA (p :: rest) k v = p :: insertA rest k v := by
        simp [insertA, h]
      rw [hstep, keysOf_cons, keysOf_cons, ih]
      by_cases hmem : k ∈ keysOf rest
      · simp [hmem, hne]
      · simp [hmem, hne]

/-! ## Sorting model

Go sort.Slice is called throughout the code with a comparator of the form
less(i, j) = score(i) GT score(j), giving a descending order with no defined
behavior on ties.  We model it as the insertion sort that moves an element in
front of another exactly when the comparator says so (strictly greater score).
sort.Slice is not guaranteed stable and leaves the order of equal-score
elements unspecified, so any theorem about that order is read as holding for
this one admissible execution of the Go code. -/

/-- Insert x in front of the first element with a strictly smaller f value. -/
def insertDescBy {α β : Type} [LinearOrder β] (f : α → β) (x : α) : List α → List α
  | [] => [x]
  | y :: ys => if f y < f x then x :: y :: ys else y :: insertDescBy f x ys

/-- Descending insertion sort by the score function f. -/
def sortDescBy {α β : Type} [LinearOrder β] (f : α → β) : List α → List α
  | [] => []
  | x :: xs => insertDescBy f x (sortDescBy f xs)

theorem perm_insertDescBy {α β : Type} [LinearOrder β] (f : α → β) (x : α) (l : List α) :
    List.Perm (insertDescBy f x l) (x :: l) := by
  induction l with
  | nil => simp [insertDescBy]
  | cons y ys ih =>
    by_cases h : f y < f x
    · simp [insertDescBy, h]
    · simp only [insertDescBy, if_neg h]
      exact (ih.cons y).trans (List.Perm.swap x y ys)

theorem perm_sortDescBy {α β : Type} [LinearOrder β] (f : α → β) (l : List α) :
    List.Perm (sortDescBy f l) l := by
  induction l with
  | nil => simp [sortDescBy]
  | cons x xs ih =>
    exact ((perm_insertDescBy f x (sortDescBy f xs)).trans (ih.cons x))

theorem mem_sortDescBy {α β : Type} [LinearOrder β] (f : α → β) (l : List α) (a : α) :
    a ∈ sortDescBy f l ↔ a ∈ l :=
  (perm_sortDescBy f l).mem_iff

theorem pairwise_insertDescBy {α β : Type} [LinearOrder β] (f : α → β) (x : α) (l : List α)
    (h : l.Pairwise (fun a b => f b ≤ f a)) :
    (insertDescBy f x l).Pairwise (fun a b => f b ≤ f a) := by
  induction l with
  | nil => simp [insertDescBy]
  | cons y ys ih =>
    rcases List.pairwise_cons.mp h with ⟨hy, hys⟩
    by_cases hlt : f y < f x
    · simp only [insertDescBy, if_pos hlt]
      refine List.pairwise_cons.mpr ⟨?_, h⟩
      intro z hz
      rcases List.mem_cons.mp hz with hzy | hzys
      · exact le_of_lt (hzy ▸ hlt)
      · exact le_trans (hy z hzys) (le_of_lt hlt)
    · simp only [insertDescBy, if_neg hlt]
      refine List.pairwise_cons.mpr ⟨?_, ih hys⟩
      intro z hz
      rcases List.mem_cons.mp ((perm_insertDescBy f x ys).mem_iff.mp hz) with hzx | hzys
      · exact hzx ▸ le_of_not_lt hlt
      · exact hy z hzys

theorem pairwise_sortDescBy {α β : Type} [LinearOrder β] (f : α → β) (l : List α) :
    (sortDescBy f l).Pairwise (fun a b => f b ≤ f a) := by
  induction l with
  | nil => simp [sortDescBy]
  | cons x xs ih => exact pairwise_insertDescBy f x _ ih

/-! ## Data source layer: multi recall merge (multi.go)

ItemRecord and RecallResult come from the datasource interface file.  The
interface-typed Metadata map is embedded as an association list of a closed
value type MVal; a nil Go map is Option.none, an allocated empty map is
some [].  The ([]string) type assertion succeeds exactly on the strs
constructor; on anything else (including a missing key, whose zero value is a
nil interface) Go panics, which the embedding marks by returning none. -/

/-- Closed embedding of the interface values stored in metadata maps. -/
inductive MVal where
  | strs : List String → MVal
  | str : String → MVal
  | num : ℚ → MVal
  deriving DecidableEq

/-- Metadata map: none is the nil Go map, some l an allocated map. -/
abbrev Meta := List (String × MVal)

structure ItemRecord where
  itemID : String
  category : String
  itemTitle : String
  description : String
  features : Option Meta
  metadata : Option Meta
  popularity : ℚ
  deriving DecidableEq

structure RecallResult where
  items : List ItemRecord
  score : ℚ
  source : String
  metadata : Option Meta
  deriving DecidableEq

/-- One iteration of the inner loop of MergeResults (multi.go lines 73 to 92).
On a collision the Go code mutates the loop copy item (sets its popularity to
the source score when larger, and appends the source name to the ([]string)
read out of the COPY's own metadata) but never writes the copy back into
itemMap, so the accumulated map is returned unchanged; when the metadata of the
incoming item lacks a "sources" key of type []string, the type assertion
panics, embedded as none. -/
def mergeItemStep (source : String) (score : ℚ)
    (itemMap : List (String × ItemRecord)) (item : ItemRecord) :
    Option (List (String × ItemRecord)) :=
  match lookupA itemMap item.itemID with
  | some existing =>
    let item1 := if score > existing.popularity then { item with popularity := score } else item
    let md := item1.metadata.getD []
    match lookupA md "sources" with
    | some (MVal.strs prev) =>
      -- the appended list (prev ++ [source]) is stored only in the discarded copy
      let _ := prev ++ [source]
      some itemMap
    | _ => none
  | none =>
    let item1 := { item with popularity := score }
    let md := item1.metadata.getD []
    let md2 := insertA md "sources" (MVal.strs [source])
    some (itemMap ++ [(item.itemID, { item1 with metadata := some md2 })])

/-- MergeResults (multi.go lines 66 to 102).  The results map is embedded as an
association list in iteration order; the final itemMap is returned in insertion
order.  none records a panic of the ([]string) type assertion. -/
def MergeResults (results : List (String × RecallResult)) : Option (List ItemRecord) :=
  (results.foldlM
      (fun (itemMap : List (String × ItemRecord)) (p : String × RecallResult) =>
        p.2.items.foldlM (mergeItemStep p.1 p.2.score) itemMap)
      ([] : List (String × ItemRecord))).map
    (fun m => m.map Prod.snd)

/-- Item with nil metadata, as produced by ordinary recall sources. -/
def plainItem (id : String) : ItemRecord :=
  { itemID := id, category := "cat", itemTitle := "t", description := "d",
    features := none, metadata := none, popularity := 0 }

/-- Two sources, both recalling the same item (cross source collision).  The
score values are integral so that kernel evaluation stays structural; their
magnitude is irrelevant to the panic. -/
def collisionResults : List (String × RecallResult) :=
  [("s1", { items := [plainItem "i1"], score := 1, source := "s1", metadata := none }),
   ("s2", { items := [plainItem "i1"], score := 2, source := "s2", metadata := none })]

/-- One source whose item list contains the same itemID twice. -/
def duplicateResults : List (String × RecallResult) :=
  [("s", { items := [plainItem "i1", plainItem "i1"], score := 1, source := "s",
           metadata := none })]

/-- C1: the spec merge rule (keep the maximum score, provenance lists both
source names) is what the inline comments of MergeResults promise, but the
code never stores the updated item back into the map and panics on the
([]string) assertion over the incoming item's metadata: merging two sources
that both recall item i1 panics instead of producing the merged record. -/
theorem c1_mergeResults_cross_source_collision_panics :
    MergeResults collisionResults = none := by decide

/-- C2: MergeResults is not total: a single source whose item list repeats an
itemID (with nil incoming metadata) drives the collision branch into the
failing ([]string) type assertion, embedded as none. -/
theorem c2_mergeResults_duplicate_item_panics :
    MergeResults duplicateResults = none := by decide

/-! ## Data source layer: HealthCheck and Close (multi.go lines 392 to 411)

Each registered source is abstracted by the name it reports, whether its
HealthCheck call fails, and whether its Close call fails.  The embeddings
additionally return the list of sources on which the operation was invoked, so
that fan out claims are expressible.  An error wrapped by HealthCheck is the
pair (source name, inner error). -/

structure SourceModel where
  name : String
  healthErr : Option String
  closeErr : Option String
  deriving DecidableEq

/-- HealthCheck (multi.go lines 392 to 399): iterate the sources in order and
return the wrapped error of the FIRST failing source immediately; later
sources are not checked.  First component: sources actually invoked. -/
def HealthCheckRun : List SourceModel → List String × Option (String × String)
  | [] => ([], none)
  | s :: rest =>
    match s.healthErr with
    | some e => ([s.name], some (s.name, e))
    | none =>
      let r := HealthCheckRun rest
      (s.name :: r.1, r.2)

/-- Close (multi.go lines 402 to 411): close every source in order, remember
only the LAST non nil error.  First component: sources actually invoked. -/
def CloseRun : List SourceModel → List String × Option String
  | [] => ([], none)
  | s :: rest =>
    let r := CloseRun rest
    (s.name :: r.1, match r.2 with | some e => some e | none => s.closeErr)

/-- Two sources that both fail health checking and both fail closing. -/
def failingSources : List SourceModel :=
  [{ name := "s1", healthErr := some "e1", closeErr := some "ce1" },
   { name := "s2", healthErr := some "e2", closeErr := some "ce2" }]

/-- C9 counterexample: with two failing sources, HealthCheck invokes only the
first source (refuting the fan out claim), and Close, though it visits both
sources, returns only the last error ce2, so neither call returns a report
carrying the first non nil error of EVERY source (ce1 is dropped). -/
theorem c9_counterexample :
    (HealthCheckRun failingSources).1 ≠ failingSources.map SourceModel.name ∧
    (CloseRun failingSources).1 = failingSources.map SourceModel.name ∧
    (CloseRun failingSources).2 = some "ce2" ∧
    (CloseRun failingSources).2 ≠ some "ce1" := by decide

/-- C9 amended: Close does invoke Close on every source even when earlier ones
fail, but returns only the last non nil error; HealthCheck stops at the first
failing source, invoking exactly the healthy prefix plus that source, and
returns that single error wrapped with the source name.  No per source error
map is aggregated by either. -/
theorem getLast?_cons_of_ne_nil {α : Type} (a : α) (l : List α) (h : l ≠ []) :
    (a :: l).getLast? = l.getLast? := by
  cases l with
  | nil => exact absurd rfl h
  | cons b t => simp [List.getLast?_cons_cons]

theorem closeRun_fst (sources : List SourceModel) :
    (CloseRun sources).1 = sources.map SourceModel.name := by
  induction sources with
  | nil => rfl
  | cons s rest ih => simp [CloseRun, ih]

theorem closeRun_snd (sources : List SourceModel) :
    (CloseRun sources).2 = (sources.filterMap SourceModel.closeErr).getLast? := by
  induction sources with
  | nil => rfl
  | cons s rest ih =>
    have hstep : (CloseRun (s :: rest)).2 =
        match (CloseRun rest).2 with
        | some e => some e
        | none => s.closeErr := rfl
    rw [hstep, ih]
    cases h : (rest.filterMap SourceModel.closeErr).getLast? with
    | none =>
      have hnil : rest.filterMap SourceModel.closeErr = [] := by
        cases hq : rest.filterMap SourceModel.closeErr with
        | nil => rfl
        | cons a t =>
          rw [hq] at h
          rcases List.getLast?_isSome.mpr (List.cons_ne_nil a t) with hsome
          rw [h] at hsome
          simp at hsome
      cases hs : s.closeErr with
      | none => simp [List.filterMap_cons, hs, hnil]
      | some e => simp [List.filterMap_cons, hs, hnil]
    | some e2 =>
      have hne : rest.filterMap SourceModel.closeErr ≠ [] := by
        intro hq
        rw [hq] at h
        simp at h
      cases hs : s.closeErr with
      | none => simp [List.filterMap_cons, hs, h]
      | some e =>
        simp only [List.filterMap_cons, hs]
        rw [getLast?_cons_of_ne_nil _ _ hne, h]

theorem healthRun_fst (sources : List SourceModel) :
    (HealthCheckRun sources).1 =
      (sources.takeWhile (fun s => s.healthErr = none)).map SourceModel.name ++
        ((sources.dropWhile (fun s => s.healthErr = none)).head?.map SourceModel.name).toList := by
  induction sources with
  | nil => rfl
  | cons s rest ih =>
    cases hs : s.healthErr with
    | some e => simp [HealthCheckRun, hs, List.takeWhile_cons, List.dropWhile_cons]
    | none => simp [HealthCheckRun, hs, List.takeWhile_cons, List.dropWhile_cons, ih]

theorem healthRun_snd (sources : List SourceModel) :
    (HealthCheckRun sources).2 =
      (sources.dropWhile (fun s => s.healthErr = none)).head?.bind
        (fun s => s.healthErr.map (fun e => (s.name, e))) := by
  induction sources with
  | nil => rfl
  | cons s rest ih =>
    cases hs : s.healthErr with
    | some e => simp [HealthCheckRun, hs, List.dropWhile_cons]
    | none => simp [HealthCheckRun, hs, List.dropWhile_cons, ih]

/-- C9 amended: Close does invoke Close on every source even when earlier ones
fail, but returns only the last non nil error; HealthCheck stops at the first
failing source, invoking exactly the healthy prefix plus that source, and
returns that single error wrapped with the source name.  No per source error
map is aggregated by either. -/
theorem c9_amended (sources : List SourceModel) :
    (CloseRun sources).1 = sources.map SourceModel.name ∧
    (CloseRun sources).2 = (sources.filterMap SourceModel.closeErr).getLast? ∧
    (HealthCheckRun sources).1 =
      (sources.takeWhile (fun s => s.healthErr = none)).map SourceModel.name ++
        ((sources.dropWhile (fun s => s.healthErr = none)).head?.map SourceModel.name).toList ∧
    (HealthCheckRun sources).2 =
      (sources.dropWhile (fun s => s.healthErr = none)).head?.bind
        (fun s => s.healthErr.map (fun e => (s.name, e))) :=
  ⟨closeRun_fst sources, closeRun_snd sources, healthRun_fst sources, healthRun_snd sources⟩

/-! ## Collaborative filtering (collaborativefiltering.go)

The user-item and item-user rating matrices are association lists in map
iteration order; stored ratings are exact rationals.  The configuration of
NewCollaborativeFilteringEngine is fixed (the code never changes it):
SimilarityThreshold 0.1, MaxNeighbors 50, MinCommonItems 2.  The Go loops that
accumulate sums over commonItems are embedded as sums of mapped lists through
the helpers meanOver and covSum (a single loop computing numerator,
denominator1 and denominator2 is three such sums). -/

abbrev RatingRow := List (String × ℚ)

abbrev RatingMatrix := List (String × RatingRow)

def minCommonItems : Nat := 2

def maxNeighbors : Nat := 50

def similarityThreshold : ℚ := 1/10

/-- AddUserRating (lines 55 to 76): upsert the rating into both matrices. -/
structure CFState where
  userItemMatrix : RatingMatrix
  itemUserMatrix : RatingMatrix

def AddUserRating (c : CFState) (userID itemID : String) (rating : ℚ) : CFState :=
  { userItemMatrix :=
      insertA c.userItemMatrix userID
        (insertA ((lookupA c.userItemMatrix userID).getD []) itemID rating),
    itemUserMatrix :=
      insertA c.itemUserMatrix itemID
        (insertA ((lookupA c.itemUserMatrix itemID).getD []) userID rating) }

/-- Go map read with zero default: ratings[id] is 0 when id is absent. -/
def rateOf (r : RatingRow) (i : String) : ℚ := (lookupA r i).getD 0

/-- Keys of r1 that also occur in r2, in the iteration order of r1 (the
commonItems loop of CalculateUserSimilarity and the commonUsers loop of
cosineSimilarity). -/
def ratedBoth (r1 r2 : RatingRow) : List String :=
  (keysOf r1).filter (fun i => (lookupA r2 i).isSome)

/-- Mean of the r values over the common list (sum1 / len, sum2 / len). -/
def meanOver (r : RatingRow) (common : List String) : ℚ :=
  ((common.map (rateOf r)).sum) / (common.length : ℚ)

/-- Centered product sum: covSum r1 r2 is the numerator of the Pearson loop,
covSum r r its denominator accumulators diff1*diff1 and diff2*diff2. -/
def covSum (r1 r2 : RatingRow) (common : List String) : ℚ :=
  ((common.map
    (fun i => (rateOf r1 i - meanOver r1 common) * (rateOf r2 i - meanOver r2 common))).sum)

/-- pearsonCorrelation (lines 234 to 268): zero on an empty common list or a
zero centered variance, otherwise the centered correlation scaled by
len(commonItems) / MaxNeighbors. -/
noncomputable def pearsonCorrelation (r1 r2 : RatingRow) (commonItems : List String) : ℝ :=
  if commonItems.length = 0 then 0
  else if covSum r1 r1 commonItems = 0 ∨ covSum r2 r2 commonItems = 0 then 0
  else ((covSum r1 r2 commonItems : ℚ) : ℝ) /
      Real.sqrt ((covSum r1 r1 commonItems * covSum r2 r2 commonItems : ℚ) : ℝ) *
      (((commonItems.length : ℚ) / (maxNeighbors : ℚ) : ℚ) : ℝ)

/-- CalculateUserSimilarity (lines 79 to 104). -/
noncomputable def CalculateUserSimilarity (m : RatingMatrix) (userID1 userID2 : String) : ℝ :=
  match lookupA m userID1, lookupA m userID2 with
  | some ratings1, some ratings2 =>
    let commonItems := ratedBoth ratings1 ratings2
    if commonItems.length < minCommonItems then 0
    else pearsonCorrelation ratings1 ratings2 commonItems
  | _, _ => 0

/-- Uncentered product sum of the cosineSimilarity loop: dotSum r1 r2 is the
dot product, dotSum r r the norm accumulators. -/
def dotSum (r1 r2 : RatingRow) (common : List String) : ℚ :=
  ((common.map (fun u => rateOf r1 u * rateOf r2 u)).sum)

/-- cosineSimilarity (lines 271 to 300). -/
noncomputable def cosineSimilarity (r1 r2 : RatingRow) : ℝ :=
  if (ratedBoth r1 r2).length = 0 then 0
  else if dotSum r1 r1 (ratedBoth r1 r2) = 0 ∨ dotSum r2 r2 (ratedBoth r1 r2) = 0 then 0
  else ((dotSum r1 r2 (ratedBoth r1 r2) : ℚ) : ℝ) /
      Real.sqrt ((dotSum r1 r1 (ratedBoth r1 r2) * dotSum r2 r2 (ratedBoth r1 r2) : ℚ) : ℝ)

/-- CalculateItemSimilarity (lines 107 to 120), over the item-user matrix. -/
noncomputable def CalculateItemSimilarity (mI : RatingMatrix) (itemID1 itemID2 : String) : ℝ :=
  match lookupA mI itemID1, lookupA mI itemID2 with
  | some ratings1, some ratings2 => cosineSimilarity ratings1 ratings2
  | _, _ => 0

/-- Well formedness: each row of the matrix binds every key once, as a Go map
does.  Every state reachable through AddUserRating satisfies it. -/
def RowsNodup (m : RatingMatrix) : Prop := ∀ p ∈ m, (keysOf p.2).Nodup

instance rowsNodupDecidable (m : RatingMatrix) : Decidable (RowsNodup m) :=
  List.decidableBAll _ m

theorem lookupA_mem {β : Type} {l : List (String × β)} {k : String} {v : β}
    (h : lookupA l k = some v) : (k, v) ∈ l := by
  induction l with
  | nil => simp [lookupA] at h
  | cons p rest ih =>
    by_cases hp : p.1 = k
    · rw [lookupA, if_pos hp] at h
      have hv : p.2 = v := Option.some.inj h
      have hpkv : p = (k, v) := by
        cases p
        simp_all
      rw [← hpkv]
      exact List.mem_cons_self p rest
    · rw [lookupA, if_neg hp] at h
      exact List.mem_cons_of_mem _ (ih h)

theorem RowsNodup.row {m : RatingMatrix} {u : String} {r : RatingRow}
    (hm : RowsNodup m) (h : lookupA m u = some r) : (keysOf r).Nodup :=
  hm (u, r) (lookupA_mem h)

theorem mem_ratedBoth (r1 r2 : RatingRow) (i : String) :
    i ∈ ratedBoth r1 r2 ↔ i ∈ keysOf r1 ∧ i ∈ keysOf r2 := by
  simp [ratedBoth, List.mem_filter, lookupA_isSome_iff]

theorem nodup_ratedBoth {r1 : RatingRow} (r2 : RatingRow) (h1 : (keysOf r1).Nodup) :
    (ratedBoth r1 r2).Nodup := h1.filter _

theorem ratedBoth_perm {r1 r2 : RatingRow}
    (h1 : (keysOf r1).Nodup) (h2 : (keysOf r2).Nodup) :
    List.Perm (ratedBoth r1 r2) (ratedBoth r2 r1) := by
  refine (List.perm_ext_iff_of_nodup (nodup_ratedBoth r2 h1) (nodup_ratedBoth r1 h2)).mpr ?_
  intro i
  rw [mem_ratedBoth, mem_ratedBoth, and_comm]

theorem sum_map_perm {l1 l2 : List String} (h : List.Perm l1 l2) (f : String → ℚ) :
    (l1.map f).sum = (l2.map f).sum := (h.map f).sum_eq

theorem pearson_swap {r1 r2 : RatingRow}
    (h1 : (keysOf r1).Nodup) (h2 : (keysOf r2).Nodup) :
    pearsonCorrelation r1 r2 (ratedBoth r1 r2) = pearsonCorrelation r2 r1 (ratedBoth r2 r1) := by
  have hperm := ratedBoth_perm h1 h2
  have hlen := hperm.length_eq
  have hmean : ∀ r, meanOver r (ratedBoth r1 r2) = meanOver r (ratedBoth r2 r1) := by
    intro r
    unfold meanOver
    rw [sum_map_perm hperm, hlen]
  have hcov : ∀ ra rb, covSum ra rb (ratedBoth r1 r2) = covSum ra rb (ratedBoth r2 r1) := by
    intro ra rb
    unfold covSum
    rw [hmean ra, hmean rb, sum_map_perm hperm]
  have hcov12 : covSum r1 r2 (ratedBoth r2 r1) = covSum r2 r1 (ratedBoth r2 r1) := by
    unfold covSum
    congr 1
    apply List.map_congr_left
    intro i _
    exact mul_comm _ _
  rw [pearsonCorrelation, pearsonCorrelation,
      hcov r1 r2, hcov r1 r1, hcov r2 r2, hlen, hcov12]
  apply if_congr Iff.rfl rfl
  apply if_congr or_comm rfl
  rw [mul_comm (covSum r1 r1 (ratedBoth r2 r1)) (covSum r2 r2 (ratedBoth r2 r1))]

theorem cosine_swap {r1 r2 : RatingRow}
    (h1 : (keysOf r1).Nodup) (h2 : (keysOf r2).Nodup) :
    cosineSimilarity r1 r2 = cosineSimilarity r2 r1 := by
  have hperm := ratedBoth_perm h1 h2
  have hlen := hperm.length_eq
  have hdot : ∀ ra rb, dotSum ra rb (ratedBoth r1 r2) = dotSum ra rb (ratedBoth r2 r1) := by
    intro ra rb
    unfold dotSum
    rw [sum_map_perm hperm]
  have hdot12 : dotSum r1 r2 (ratedBoth r2 r1) = dotSum r2 r1 (ratedBoth r2 r1) := by
    unfold dotSum
    congr 1
    apply List.map_congr_left
    intro i _
    exact mul_comm _ _
  rw [cosineSimilarity, cosineSimilarity,
      hdot r1 r2, hdot r1 r1, hdot r2 r2, hlen, hdot12]
  apply if_congr Iff.rfl rfl
  apply if_congr or_comm rfl
  rw [mul_comm (dotSum r1 r1 (ratedBoth r2 r1)) (dotSum r2 r2 (ratedBoth r2 r1))]

/-- C8: both similarity functions are symmetric in their two arguments, over
every well formed pair of matrices.  The common lists enumerate the
intersection in different orders on the two sides, but over exact arithmetic
the sums agree. -/
theorem c8_similarity_symmetric (m mI : RatingMatrix) (u1 u2 i1 i2 : String)
    (hm : RowsNodup m) (hI : RowsNodup mI) :
    CalculateUserSimilarity m u1 u2 = CalculateUserSimilarity m u2 u1 ∧
    CalculateItemSimilarity mI i1 i2 = CalculateItemSimilarity mI i2 i1 := by
  constructor
  · unfold CalculateUserSimilarity
    cases hl1 : lookupA m u1 with
    | none =>
      cases hl2 : lookupA m u2 with
      | none => rfl
      | some r2 => rfl
    | some r1 =>
      cases hl2 : lookupA m u2 with
      | none => rfl
      | some r2 =>
        have hn1 := hm.row hl1
        have hn2 := hm.row hl2
        have hlen := (ratedBoth_perm hn1 hn2).length_eq
        simp only
        rw [hlen]
        exact if_congr Iff.rfl rfl (pearson_swap hn1 hn2)
  · unfold CalculateItemSimilarity
    cases hl1 : lookupA mI i1 with
    | none =>
      cases hl2 : lookupA mI i2 with
      | none => rfl
      | some r2 => rfl
    | some r1 =>
      cases hl2 : lookupA mI i2 with
      | none => rfl
      | some r2 => exact cosine_swap (hI.row hl1) (hI.row hl2)

/-- Concrete two user, two item state used to instantiate the hypotheses of
the symmetry and characterization theorems. -/
def cfWitnessMatrix : RatingMatrix :=
  [("a", [("x", 1), ("y", 2)]), ("b", [("x", 2), ("y", 1)])]

theorem c8_witness :
    RowsNodup cfWitnessMatrix ∧ RowsNodup cfWitnessMatrix ∧
    (CalculateUserSimilarity cfWitnessMatrix "a" "b" =
      CalculateUserSimilarity cfWitnessMatrix "b" "a" ∧
    CalculateItemSimilarity cfWitnessMatrix "x" "y" =
      CalculateItemSimilarity cfWitnessMatrix "y" "x") :=
  ⟨by decide, by decide,
    c8_similarity_symmetric cfWitnessMatrix cfWitnessMatrix "a" "b" "x" "y"
      (by decide) (by decide)⟩

/-! ## C7: characterization of CalculateUserSimilarity against the spec text -/

/-- Common item set of two rows, as an order free Finset (the spec speaks of
the intersection of the item sets both users rated). -/
def specCommon (r1 r2 : RatingRow) : Finset String :=
  (keysOf r1).toFinset ∩ (keysOf r2).toFinset

/-- Mean over the common set, per the spec wording. -/
def specMean (r : RatingRow) (S : Finset String) : ℚ :=
  (∑ i ∈ S, rateOf r i) / (S.card : ℚ)

/-- Centered product sum over the common set, per the spec wording: with both
arguments equal it is the centered variance numerator of one user. -/
def specCov (r1 r2 : RatingRow) (S : Finset String) : ℚ :=
  ∑ i ∈ S, (rateOf r1 i - specMean r1 S) * (rateOf r2 i - specMean r2 S)

/-- Spec side of C7, written from the claim text only: 0 when either user is
absent from the matrix or the common item set is smaller than minCommonItems
(default 2), 0 when either centered variance over the common set vanishes, and
otherwise the Pearson correlation over the common set multiplied by
card / maxNeighbors. -/
noncomputable def userSimilaritySpec (m : RatingMatrix) (u1 u2 : String) : ℝ :=
  match lookupA m u1, lookupA m u2 with
  | some r1, some r2 =>
    if (specCommon r1 r2).card < minCommonItems then 0
    else if specCov r1 r1 (specCommon r1 r2) = 0 ∨ specCov r2 r2 (specCommon r1 r2) = 0 then 0
    else ((specCov r1 r2 (specCommon r1 r2) : ℚ) : ℝ) /
        Real.sqrt ((specCov r1 r1 (specCommon r1 r2) * specCov r2 r2 (specCommon r1 r2) : ℚ) : ℝ) *
        ((((specCommon r1 r2).card : ℚ) / (maxNeighbors : ℚ) : ℚ) : ℝ)
  | _, _ => 0

theorem toFinset_ratedBoth (r1 r2 : RatingRow) :
    (ratedBoth r1 r2).toFinset = specCommon r1 r2 := by
  ext i
  simp [specCommon, mem_ratedBoth]

theorem specCommon_card {r1 r2 : RatingRow} (h1 : (keysOf r1).Nodup) :
    (specCommon r1 r2).card = (ratedBoth r1 r2).length := by
  rw [← toFinset_ratedBoth, List.toFinset_card_of_nodup (nodup_ratedBoth r2 h1)]

theorem specSum_eq {r1 r2 : RatingRow} (h1 : (keysOf r1).Nodup) (f : String → ℚ) :
    (∑ i ∈ specCommon r1 r2, f i) = ((ratedBoth r1 r2).map f).sum := by
  rw [← toFinset_ratedBoth, List.sum_toFinset f (nodup_ratedBoth r2 h1)]

theorem specMean_eq {r1 r2 : RatingRow} (h1 : (keysOf r1).Nodup) (r : RatingRow) :
    specMean r (specCommon r1 r2) = meanOver r (ratedBoth r1 r2) := by
  unfold specMean meanOver
  rw [specSum_eq h1, specCommon_card h1]

theorem specCov_eq {r1 r2 : RatingRow} (h1 : (keysOf r1).Nodup) (ra rb : RatingRow) :
    specCov ra rb (specCommon r1 r2) = covSum ra rb (ratedBoth r1 r2) := by
  unfold specCov covSum
  rw [specMean_eq h1 ra, specMean_eq h1 rb, specSum_eq h1]

/-- C7: over every well formed matrix, CalculateUserSimilarity is exactly the
function the spec describes: 0 for an unrated user or a common item set of
size below minCommonItems (default 2) or a vanishing centered variance, and
otherwise the Pearson correlation over the common items scaled by
card(commonItems) / maxNeighbors. -/
theorem c7_user_similarity_characterization (m : RatingMatrix) (u1 u2 : String)
    (hm : RowsNodup m) :
    CalculateUserSimilarity m u1 u2 = userSimilaritySpec m u1 u2 := by
  unfold CalculateUserSimilarity userSimilaritySpec
  cases hl1 : lookupA m u1 with
  | none =>
    cases hl2 : lookupA m u2 with
    | none => rfl
    | some r2 => rfl
  | some r1 =>
    cases hl2 : lookupA m u2 with
    | none => rfl
    | some r2 =>
      have hn1 := hm.row hl1
      simp only
      rw [specCommon_card hn1, specCov_eq hn1 r1 r1, specCov_eq hn1 r2 r2,
          specCov_eq hn1 r1 r2]
      apply if_congr Iff.rfl rfl
      by_cases hz : (ratedBoth r1 r2).length = 0
      · have hnil : ratedBoth r1 r2 = [] := List.length_eq_zero.mp hz
        rw [pearsonCorrelation, if_pos hz, hnil]
        have hcz : covSum r1 r1 [] = 0 := by simp [covSum]
        rw [if_pos (Or.inl hcz)]
      · rw [pearsonCorrelation, if_neg hz]

theorem c7_witness :
    RowsNodup cfWitnessMatrix ∧
    CalculateUserSimilarity cfWitnessMatrix "a" "b" =
      userSimilaritySpec cfWitnessMatrix "a" "b" :=
  ⟨by decide, c7_user_similarity_characterization cfWitnessMatrix "a" "b" (by decide)⟩

/-! ## Recommendation generation (collaborativefiltering.go lines 123 to 231)

findSimilarUsers iterates the user map (embedded in list order), filters by
the 0.1 similarity threshold, sorts descending and truncates to MaxNeighbors.
ItemBasedRecommend populates the itemSimilarity cache on first use, but
findSimilarItems recomputes CalculateItemSimilarity directly and never reads
that cache, so the cache has no effect on the returned value and is omitted
from the embedding. -/

structure SimilarUser where
  userID : String
  similarity : ℝ

structure SimilarItem where
  itemID : String
  similarity : ℝ

structure Recommendation where
  itemID : String
  score : ℝ

/-- The Go pattern: create the key at 0 when absent, then add v to it. -/
def addScore (acc : List (String × ℝ)) (k : String) (v : ℝ) : List (String × ℝ) :=
  insertA acc k (((lookupA acc k).getD 0) + v)

/-- findSimilarUsers (lines 303 to 331). -/
noncomputable def findSimilarUsers (m : RatingMatrix) (userID : String) : List SimilarUser :=
  let qualified := ((keysOf m).filter (fun other => other ≠ userID)).filterMap
    (fun other =>
      if ((similarityThreshold : ℚ) : ℝ) ≤ CalculateUserSimilarity m userID other then
        some ⟨other, CalculateUserSimilarity m userID other⟩
      else none)
  (sortDescBy SimilarUser.similarity qualified).take maxNeighbors

/-- UserBasedRecommend (lines 123 to 174). -/
noncomputable def UserBasedRecommend (m : RatingMatrix) (userID : String) (topN : Nat) :
    List Recommendation :=
  match lookupA m userID with
  | none => []
  | some userRatings =>
    let recMap := (findSimilarUsers m userID).foldl
      (fun acc su =>
        ((lookupA m su.userID).getD []).foldl
          (fun acc2 p =>
            if (lookupA userRatings p.1).isSome then acc2
            else addScore acc2 p.1 (su.similarity * (p.2 : ℝ)))
          acc)
      []
    ((sortDescBy Recommendation.score (recMap.map (fun p => Recommendation.mk p.1 p.2))).take topN)

/-- findSimilarItems (lines 334 to 362). -/
noncomputable def findSimilarItems (mI : RatingMatrix) (itemID : String) : List SimilarItem :=
  let qualified := ((keysOf mI).filter (fun other => other ≠ itemID)).filterMap
    (fun other =>
      if ((similarityThreshold : ℚ) : ℝ) ≤ CalculateItemSimilarity mI itemID other then
        some ⟨other, CalculateItemSimilarity mI itemID other⟩
      else none)
  (sortDescBy SimilarItem.similarity qualified).take maxNeighbors

/-- ItemBasedRecommend (lines 177 to 231). -/
noncomputable def ItemBasedRecommend (m mI : RatingMatrix) (userID : String) (topN : Nat) :
    List Recommendation :=
  match lookupA m userID with
  | none => []
  | some userRatings =>
    let recMap := userRatings.foldl
      (fun acc q =>
        (findSimilarItems mI q.1).foldl
          (fun acc2 si =>
            if (lookupA userRatings si.itemID).isSome then acc2
            else addScore acc2 si.itemID (si.similarity * (q.2 : ℝ)))
          acc)
      []
    ((sortDescBy Recommendation.score (recMap.map (fun p => Recommendation.mk p.1 p.2))).take topN)

/-- C10 amended: both recommenders return a list sorted by weakly descending
score (take of the descending sort), but the comparator knows only the score:
nothing orders equal score items by item identifier, and the relative order of
ties is inherited from map iteration order, which Go leaves unspecified. -/
theorem c10_amended (m mI : RatingMatrix) (u : String) (n : Nat) :
    (UserBasedRecommend m u n).Pairwise (fun a b => b.score ≤ a.score) ∧
    (ItemBasedRecommend m mI u n).Pairwise (fun a b => b.score ≤ a.score) := by
  constructor
  · unfold UserBasedRecommend
    cases lookupA m u with
    | none => simp
    | some userRatings =>
      exact (pairwise_sortDescBy Recommendation.score _).sublist (List.take_sublist n _)
  · unfold ItemBasedRecommend
    cases lookupA m u with
    | none => simp
    | some userRatings =>
      exact (pairwise_sortDescBy Recommendation.score _).sublist (List.take_sublist n _)

/-! ## C4: calculatePopularityScore (hybridfiltering.go lines 235 to 257) -/

/-- calculatePopularityScore: count the users whose row contains the item,
then normalize by the LARGEST NUMBER OF RATINGS MADE BY ANY SINGLE USER (the
second loop maximizes len(userRatings) over users, not over items). -/
def calculatePopularityScore (m : RatingMatrix) (itemID : String) : ℚ :=
  let ratingCount := m.foldl
    (fun acc p => if (lookupA p.2 itemID).isSome then acc + 1 else acc) (0 : Nat)
  let maxRatingCount := m.foldl
    (fun acc p => if p.2.length > acc then p.2.length else acc) (0 : Nat)
  if maxRatingCount = 0 then 1/2
  else (ratingCount : ℚ) / (maxRatingCount : ℚ)

/-- Spec side of C4, written from the spec text only: number of users who
rated the item divided by the maximum rating count across all items of the
catalog, 0.5 when the catalog is empty. -/
def popularityScoreSpec (m : RatingMatrix) (itemID : String) : ℚ :=
  let raters := fun (i : String) => (m.filter (fun p => (lookupA p.2 i).isSome)).length
  let catalog := (m.map (fun p => keysOf p.2)).flatten
  if catalog = [] then 1/2
  else (raters itemID : ℚ) / (((catalog.map raters).foldl max 0 : Nat) : ℚ)

/-- One user who rated three items. -/
def popMatrix : RatingMatrix := [("u1", [("i1", 5), ("i2", 4), ("i3", 3)])]

/-- C4 counterexample: item i1 was rated by 1 user and no item of the catalog
has more than 1 rater, so the spec formula gives 1, but the code divides by
the maximum number of ratings per USER (3) and returns 1/3. -/
theorem c4_counterexample :
    calculatePopularityScore popMatrix "i1" = 1/3 ∧
    popularityScoreSpec popMatrix "i1" = 1 ∧
    (1/3 : ℚ) ≠ 1 := by
  refine ⟨?_, ?_, by norm_num⟩
  · simp [calculatePopularityScore, popMatrix, lookupA, List.foldl]
  · simp [popularityScoreSpec, popMatrix, lookupA, keysOf, List.foldl, List.filter,
      List.flatten]

theorem countFold {α : Type} (p : α → Bool) (l : List α) (n : Nat) :
    l.foldl (fun acc x => if p x then acc + 1 else acc) n = n + (l.filter p).length := by
  induction l generalizing n with
  | nil => simp
  | cons x xs ih =>
    by_cases hx : p x
    · simp [List.foldl, hx, ih]
      omega
    · simp [List.foldl, hx, ih]

theorem maxFold {α : Type} (f : α → Nat) (l : List α) (n : Nat) :
    l.foldl (fun acc x => if f x > acc then f x else acc) n = (l.map f).foldl max n := by
  induction l generalizing n with
  | nil => simp
  | cons x xs ih =>
    have hstep : (if f x > n then f x else n) = max n (f x) := by
      rcases le_or_lt (f x) n with h | h
      · rw [if_neg (not_lt.mpr h), max_eq_left h]
      · rw [if_pos h, max_eq_right (le_of_lt h)]
    simp [List.foldl, hstep, ih]

/-- C4 amended: the popularity score is the number of users who rated the item
divided by the maximum number of ratings made by any single user (the largest
row of the user-item matrix), and it is 0.5 exactly when no user has rated
anything. -/
theorem c4_amended (m : RatingMatrix) (itemID : String) :
    calculatePopularityScore m itemID =
      if (m.map (fun p => p.2.length)).foldl max 0 = 0 then 1/2
      else ((m.filter (fun p => (lookupA p.2 itemID).isSome)).length : ℚ) /
          (((m.map (fun p => p.2.length)).foldl max 0 : Nat) : ℚ) := by
  unfold calculatePopularityScore
  rw [countFold, maxFold]
  simp

/-! ## Content based filtering (package algorithms, content engine source)

Profiles and item features use association lists for the Go maps; stored
weights are exact rationals.  The engine configuration is the fixed one of
NewContentBasedFilteringEngine (SimilarityThreshold 0.3).  getCurrentTimestamp
is passed in as the explicit parameter now wherever the Go code reads the
clock. -/

structure UserProfile where
  userID : String
  featureVector : List (String × ℚ)
  preferences : List (String × ℚ)
  updateTime : Int

structure ItemFeatures where
  itemID : String
  category : String
  keywords : List String
  features : List (String × ℚ)
  metadata : Meta

structure ContentState where
  userProfiles : List (String × UserProfile)
  itemFeatures : List (String × ItemFeatures)
  userItemHistory : List (String × List (String × ℚ))

def contentSimilarityThreshold : ℚ := 3/10

/-- AddItemFeatures: upsert the item record into the catalog. -/
def AddItemFeatures (c : ContentState) (itemID category : String)
    (keywords : List String) (features : List (String × ℚ)) : ContentState :=
  let item : ItemFeatures :=
    { itemID := itemID, category := category, keywords := keywords,
      features := features, metadata := [] }
  { c with itemFeatures := insertA c.itemFeatures itemID item }

/-- UpdateUserPreference: create the profile if missing and set the preference
weight directly (no clamping, no normalization). -/
def UpdateUserPreference (c : ContentState) (userID preference : String) (weight : ℚ)
    (now : Int) : ContentState :=
  let profile := (lookupA c.userProfiles userID).getD
    { userID := userID, featureVector := [], preferences := [], updateTime := now }
  let profile2 := { profile with
    preferences := insertA profile.preferences preference weight, updateTime := now }
  { c with userProfiles := insertA c.userProfiles userID profile2 }

/-- calculateFeatureSimilarity: cosine of the two feature vectors, iterating
the user vector for the dot product and user norm, the item vector for the
item norm; 0 when either norm is 0.  Note the denominator is the product of
two square roots here, unlike the single root in pearsonCorrelation. -/
noncomputable def calculateFeatureSimilarity (userFeatures itemFeats : List (String × ℚ)) : ℝ :=
  let dotProduct : ℚ := (userFeatures.map (fun p =>
      match lookupA itemFeats p.1 with
      | some itemValue => p.2 * itemValue
      | none => 0)).sum
  let normUser : ℚ := (userFeatures.map (fun p => p.2 * p.2)).sum
  let normItem : ℚ := (itemFeats.map (fun p => p.2 * p.2)).sum
  if normUser = 0 ∨ normItem = 0 then 0
  else (dotProduct : ℝ) / (Real.sqrt (normUser : ℝ) * Real.sqrt (normItem : ℝ))

/-- calculateKeywordSimilarity: sum of the preference weights of the matched
keywords divided by the TOTAL keyword count of the item; 0 when the item has
no keywords or none matches. -/
def calculateKeywordSimilarity (userPreferences : List (String × ℚ))
    (itemKeywords : List String) : ℚ :=
  if itemKeywords.length = 0 then 0
  else
    let matched := itemKeywords.filterMap (fun kw => lookupA userPreferences kw)
    if matched.length = 0 then 0
    else matched.sum / (itemKeywords.length : ℚ)

/-- calculateCategorySimilarity: the raw preference weight of the category. -/
def calculateCategorySimilarity (userPreferences : List (String × ℚ))
    (category : String) : ℚ :=
  (lookupA userPreferences category).getD 0

/-- calculateSimilarity: 0.5 feature + 0.3 keyword + 0.2 category. -/
noncomputable def calculateSimilarity (profile : UserProfile) (item : ItemFeatures) : ℝ :=
  0.5 * calculateFeatureSimilarity profile.featureVector item.features +
  0.3 * ((calculateKeywordSimilarity profile.preferences item.keywords : ℚ) : ℝ) +
  0.2 * ((calculateCategorySimilarity profile.preferences item.category : ℚ) : ℝ)

/-- GenerateRecommendations of the content engine: score every catalog item
outside the user history, keep scores at or above the 0.3 threshold, sort
descending, truncate. -/
noncomputable def GenerateRecommendationsContent (c : ContentState) (userID : String)
    (topN : Nat) : List Recommendation :=
  match lookupA c.userProfiles userID with
  | none => []
  | some profile =>
    let userHistory := (lookupA c.userItemHistory userID).getD []
    let recommendations := c.itemFeatures.filterMap (fun p =>
      if (lookupA userHistory p.1).isSome then none
      else if ((contentSimilarityThreshold : ℚ) : ℝ) ≤ calculateSimilarity profile p.2 then
        some (Recommendation.mk p.1 (calculateSimilarity profile p.2))
      else none)
    (sortDescBy Recommendation.score recommendations).take topN

/-- Profile reached by UpdateUserPreference with weight 10 on category c. -/
def c6Profile : UserProfile :=
  { userID := "u", featureVector := [], preferences := [("c", 10)], updateTime := 0 }

/-- Item of category c with no keywords and no features. -/
def c6Item : ItemFeatures :=
  { itemID := "i1", category := "c", keywords := [], features := [], metadata := [] }

/-- State built through the public API: register the item, set the category
preference weight to 10. -/
def c6State : ContentState :=
  UpdateUserPreference
    (AddItemFeatures { userProfiles := [], itemFeatures := [], userItemHistory := [] }
      "i1" "c" [] [])
    "u" "c" 10 0

theorem c6State_eq :
    c6State = { userProfiles := [("u", c6Profile)], itemFeatures := [("i1", c6Item)],
                userItemHistory := [] } := by
  rfl

theorem c6_sim : calculateSimilarity c6Profile c6Item = 2 := by
  unfold calculateSimilarity c6Profile c6Item
  norm_num [calculateFeatureSimilarity, calculateKeywordSimilarity,
    calculateCategorySimilarity, lookupA]

/-! ## Hybrid blending (hybridfiltering.go)

The default configuration of NewHybridFilteringEngine: weights 0.4, 0.4, 0.1,
0.05, 0.05, all three adjustment signals enabled. -/

structure HybridConfig where
  collaborativeWeight : ℚ
  contentBasedWeight : ℚ
  diversityWeight : ℚ
  popularityWeight : ℚ
  recencyWeight : ℚ
  enableDiversity : Bool
  enablePopularity : Bool
  enableRecency : Bool

def defaultHybridConfig : HybridConfig :=
  { collaborativeWeight := 0.4, contentBasedWeight := 0.4, diversityWeight := 0.1,
    popularityWeight := 0.05, recencyWeight := 0.05,
    enableDiversity := true, enablePopularity := true, enableRecency := true }

structure HybridRecommendation where
  itemID : String
  score : ℝ
  collaborativeScore : ℝ
  contentBasedScore : ℝ
  diversityScore : ℝ
  popularityScore : ℝ
  recencyScore : ℝ
  confidence : ℝ
  reason : String

/-- Go zero value of HybridRecommendation with the itemID filled in. -/
def zeroHybrid (id : String) : HybridRecommendation :=
  { itemID := id, score := 0, collaborativeScore := 0, contentBasedScore := 0,
    diversityScore := 0, popularityScore := 0, recencyScore := 0, confidence := 0,
    reason := "" }

/-- mergeRecommendations (lines 109 to 143): key both lists by itemID; the
component score missing from one source stays 0. -/
def mergeRecommendations (collaborativeRecs contentBasedRecs : List Recommendation) :
    List (String × HybridRecommendation) :=
  let merged := collaborativeRecs.foldl
    (fun acc rec =>
      match lookupA acc rec.itemID with
      | none => acc ++ [(rec.itemID, { zeroHybrid rec.itemID with collaborativeScore := rec.score })]
      | some hybridRec => insertA acc rec.itemID { hybridRec with collaborativeScore := rec.score })
    []
  contentBasedRecs.foldl
    (fun acc rec =>
      match lookupA acc rec.itemID with
      | none => acc ++ [(rec.itemID, { zeroHybrid rec.itemID with contentBasedScore := rec.score })]
      | some hybridRec => insertA acc rec.itemID { hybridRec with contentBasedScore := rec.score })
    merged

/-- Per record score assembly of calculateHybridScores (lines 149 to 183):
base plus the three weighted adjustment signals, each signal zeroed when its
enable flag is off.  No clamping anywhere. -/
def hybridFinalScore (cfg : HybridConfig)
    (collabScore contentScore diversityScore popularityScore recencyScore : ℝ) : ℝ :=
  let baseScore := (cfg.collaborativeWeight : ℝ) * collabScore +
    (cfg.contentBasedWeight : ℝ) * contentScore
  let d := if cfg.enableDiversity then diversityScore else 0
  let p := if cfg.enablePopularity then popularityScore else 0
  let r := if cfg.enableRecency then recencyScore else 0
  baseScore + (cfg.diversityWeight : ℝ) * d + (cfg.popularityWeight : ℝ) * p +
    (cfg.recencyWeight : ℝ) * r

theorem c6ContentEval :
    (GenerateRecommendationsContent c6State "u" 10).map Recommendation.score = [(2 : ℝ)] := by
  have hcond : ((contentSimilarityThreshold : ℚ) : ℝ) ≤ 2 := by
    norm_num [contentSimilarityThreshold]
  rw [c6State_eq]
  simp [GenerateRecommendationsContent, lookupA, List.filterMap, hcond, c6_sim,
    sortDescBy, insertDescBy]

/-- C6 counterexample: a reachable content engine state (register item i1 of
category c, set the category preference weight of user u to 10 through
UpdateUserPreference) makes the content score attached to the recommendation
of i1 equal to 2, outside [0,1]. -/
theorem c6_counterexample :
    (GenerateRecommendationsContent c6State "u" 10).map Recommendation.score = [(2 : ℝ)] ∧
    ¬ ((2 : ℝ) ≤ 1) :=
  ⟨c6ContentEval, by norm_num⟩

/-- C6 amended: neither component score is clamped: the content score of a
recommendation can exceed 1 (the reachable state of c6State yields 2), and the
final hybrid score is exactly the unclamped affine combination
0.4 collaborative + 0.4 content + 0.1 diversity + 0.05 popularity +
0.05 recency. -/
theorem c6_amended :
    (∀ collab content d p r : ℝ,
      hybridFinalScore defaultHybridConfig collab content d p r =
        0.4 * collab + 0.4 * content + 0.1 * d + 0.05 * p + 0.05 * r) ∧
    (∃ s ∈ (GenerateRecommendationsContent c6State "u" 10).map Recommendation.score, 1 < s) := by
  constructor
  · intro collab content d p r
    simp only [hybridFinalScore, defaultHybridConfig]
    norm_num
  · refine ⟨2, ?_, by norm_num⟩
    rw [c6ContentEval]
    simp

/-! ## applyDiversityOptimization (hybridfiltering.go lines 325 to 376)

The Go loop mutates the recommendations slice in place: at position i it scans
j in [i, len), picks the index with the largest diversity score (halved when
the category was already selected; candidates without registered features are
skipped), swaps it into position i, records its category and appends it to
optimized.  When no candidate at all has features, nothing is appended at that
position (the item is dropped from optimized).  The embedding carries the
mutated slice, the selected category set and the optimized accumulator
explicitly; fuel counts the remaining loop iterations. -/

def swapL {α : Type} (l : List α) (i j : Nat) : List α :=
  match l[i]?, l[j]? with
  | some a, some b => (l.set i b).set j a
  | _, _ => l

/-- Inner scan (lines 341 to 360): best index and best penalized diversity
score over j in [i, len), starting from (none, -1). -/
noncomputable def divBest (feats : List (String × ItemFeatures)) (selected : List String)
    (arr : List HybridRecommendation) (i : Nat) : Option Nat × ℝ :=
  (List.range' i (arr.length - i)).foldl
    (fun acc j =>
      match arr[j]? with
      | none => acc
      | some r =>
        match lookupA feats r.itemID with
        | none => acc
        | some f =>
          let d := if f.category ∈ selected then r.diversityScore * 0.5 else r.diversityScore
          if acc.2 < d then (some j, d) else acc)
    (none, (-1 : ℝ))

/-- Outer loop (lines 340 to 373), iterating the index values i of the Go for
loop (1 up to len-1); the swap at each step mutates the carried slice. -/
noncomputable def divLoop (feats : List (String × ItemFeatures)) :
    List Nat → List HybridRecommendation → List String → List HybridRecommendation →
    List HybridRecommendation
  | [], _, _, optimized => optimized
  | i :: rest, arr, selected, optimized =>
    match (divBest feats selected arr i).1 with
    | none => divLoop feats rest arr selected optimized
    | some bestIdx =>
      let arr2 := swapL arr i bestIdx
      match arr2[i]? with
      | none => divLoop feats rest arr2 selected optimized
      | some r =>
        let selected2 :=
          match lookupA feats r.itemID with
          | some f => f.category :: selected
          | none => selected
        divLoop feats rest arr2 selected2 (optimized ++ [r])

noncomputable def applyDiversityOptimization (feats : List (String × ItemFeatures))
    (recommendations : List HybridRecommendation) : List HybridRecommendation :=
  if recommendations.length ≤ 1 then recommendations
  else
    match recommendations with
    | [] => []
    | r0 :: _ =>
      let selected : List String :=
        match lookupA feats r0.itemID with
        | some f => [f.category]
        | none => []
      divLoop feats (List.range' 1 (recommendations.length - 1)) recommendations selected [r0]

/-- The post merge stage of GenerateRecommendations (lines 88 to 105): apply
the diversity pass when enabled, THEN sort by final score descending, then
truncate to topN. -/
noncomputable def hybridPostRanking (cfg : HybridConfig)
    (feats : List (String × ItemFeatures)) (topN : Nat)
    (hybridRecs : List HybridRecommendation) : List HybridRecommendation :=
  let recs2 :=
    if cfg.enableDiversity then applyDiversityOptimization feats hybridRecs else hybridRecs
  (sortDescBy HybridRecommendation.score recs2).take topN

/-- Spec side of C3, written from the claim text only: first sort the merged
candidates by final score descending, then run the greedy diversity rebuild,
and return that greedy order truncated to topN. -/
noncomputable def specDiversityPipeline (feats : List (String × ItemFeatures)) (topN : Nat)
    (hybridRecs : List HybridRecommendation) : List HybridRecommendation :=
  (applyDiversityOptimization feats (sortDescBy HybridRecommendation.score hybridRecs)).take topN

/-- Items a, b, c with distinct categories A, B, C, all registered. -/
def c3Feat (id cat : String) : ItemFeatures :=
  { itemID := id, category := cat, keywords := [], features := [], metadata := [] }

def c3Feats : List (String × ItemFeatures) :=
  [("a", c3Feat "a" "A"), ("b", c3Feat "b" "B"), ("c", c3Feat "c" "C")]

noncomputable def c3Rec (id : String) (s d : ℝ) : HybridRecommendation :=
  { zeroHybrid id with score := s, diversityScore := d }

noncomputable def recA : HybridRecommendation := c3Rec "a" 0.5 0.9

noncomputable def recB : HybridRecommendation := c3Rec "b" 0.9 0.6

noncomputable def recC : HybridRecommendation := c3Rec "c" 0.7 0.2

/-- Merged candidates in map iteration order a, b, c: a has the lowest final
score but the highest diversity score. -/
noncomputable def c3Recs : List HybridRecommendation := [recA, recB, recC]


theorem divBestCode1 :
    divBest c3Feats ["A"] [recA, recB, recC] 1 = (some 1, 0.6) := by
  simp only [divBest,
    show (List.range' 1 (([recA, recB, recC] : List HybridRecommendation).length - 1)) = [1, 2]
      from rfl,
    List.foldl,
    show ([recA, recB, recC] : List HybridRecommendation)[1]? = some recB from rfl,
    show ([recA, recB, recC] : List HybridRecommendation)[2]? = some recC from rfl,
    show recB.itemID = "b" from rfl,
    show recC.itemID = "c" from rfl,
    show lookupA c3Feats "b" = some (c3Feat "b" "B") from rfl,
    show lookupA c3Feats "c" = some (c3Feat "c" "C") from rfl,
    show (c3Feat "b" "B").category = "B" from rfl,
    show (c3Feat "c" "C").category = "C" from rfl,
    show recB.diversityScore = 0.6 from rfl,
    show recC.diversityScore = 0.2 from rfl,
    show (("B" : String) ∈ (["A"] : List String)) = False from by simp,
    show (("C" : String) ∈ (["A"] : List String)) = False from by simp,
    if_false]
  norm_num

theorem divBestCode2 :
    divBest c3Feats ["B", "A"] [recA, recB, recC] 2 = (some 2, 0.2) := by
  simp only [divBest,
    show (List.range' 2 (([recA, recB, recC] : List HybridRecommendation).length - 2)) = [2]
      from rfl,
    List.foldl,
    show ([recA, recB, recC] : List HybridRecommendation)[2]? = some recC from rfl,
    show recC.itemID = "c" from rfl,
    show lookupA c3Feats "c" = some (c3Feat "c" "C") from rfl,
    show (c3Feat "c" "C").category = "C" from rfl,
    show recC.diversityScore = 0.2 from rfl,
    show (("C" : String) ∈ (["B", "A"] : List String)) = False from by simp,
    if_false]
  norm_num

theorem applyDivCode :
    applyDiversityOptimization c3Feats [recA, recB, recC] = [recA, recB, recC] := by
  simp only [applyDiversityOptimization,
    show (([recA, recB, recC] : List HybridRecommendation).length ≤ 1) = False from by simp,
    if_false,
    show recA.itemID = "a" from rfl,
    show lookupA c3Feats "a" = some (c3Feat "a" "A") from rfl,
    show (c3Feat "a" "A").category = "A" from rfl,
    show (List.range' 1 (([recA, recB, recC] : List HybridRecommendation).length - 1)) = [1, 2]
      from rfl,
    divLoop, show (1 + 1 : Nat) = 2 from rfl, divBestCode1,
    show swapL [recA, recB, recC] 1 1 = [recA, recB, recC] from rfl,
    show ([recA, recB, recC] : List HybridRecommendation)[1]? = some recB from rfl,
    show recB.itemID = "b" from rfl,
    show lookupA c3Feats "b" = some (c3Feat "b" "B") from rfl,
    show (c3Feat "b" "B").category = "B" from rfl,
    divBestCode2,
    show swapL [recA, recB, recC] 2 2 = [recA, recB, recC] from rfl,
    show ([recA, recB, recC] : List HybridRecommendation)[2]? = some recC from rfl,
    show recC.itemID = "c" from rfl,
    show lookupA c3Feats "c" = some (c3Feat "c" "C") from rfl,
    List.append_nil, List.cons_append, List.nil_append, List.singleton_append]

theorem sortCode :
    sortDescBy HybridRecommendation.score [recA, recB, recC] = [recB, recC, recA] := by
  simp only [sortDescBy, insertDescBy,
    show recA.score = 0.5 from rfl,
    show recB.score = 0.9 from rfl,
    show recC.score = 0.7 from rfl,
    show (((0.7 : ℝ) < 0.9)) = True from by norm_num,
    show (((0.9 : ℝ) < 0.5)) = False from by norm_num,
    show (((0.7 : ℝ) < 0.5)) = False from by norm_num,
    if_true, if_false]

theorem divBestSpec1 :
    divBest c3Feats ["B"] [recB, recC, recA] 1 = (some 2, 0.9) := by
  simp only [divBest,
    show (List.range' 1 (([recB, recC, recA] : List HybridRecommendation).length - 1)) = [1, 2]
      from rfl,
    List.foldl,
    show ([recB, recC, recA] : List HybridRecommendation)[1]? = some recC from rfl,
    show ([recB, recC, recA] : List HybridRecommendation)[2]? = some recA from rfl,
    show recC.itemID = "c" from rfl,
    show recA.itemID = "a" from rfl,
    show lookupA c3Feats "c" = some (c3Feat "c" "C") from rfl,
    show lookupA c3Feats "a" = some (c3Feat "a" "A") from rfl,
    show (c3Feat "c" "C").category = "C" from rfl,
    show (c3Feat "a" "A").category = "A" from rfl,
    show recC.diversityScore = 0.2 from rfl,
    show recA.diversityScore = 0.9 from rfl,
    show (("C" : String) ∈ (["B"] : List String)) = False from by simp,
    show (("A" : String) ∈ (["B"] : List String)) = False from by simp,
    if_false]
  norm_num

theorem divBestSpec2 :
    divBest c3Feats ["A", "B"] [recB, recA, recC] 2 = (some 2, 0.2) := by
  simp only [divBest,
    show (List.range' 2 (([recB, recA, recC] : List HybridRecommendation).length - 2)) = [2]
      from rfl,
    List.foldl,
    show ([recB, recA, recC] : List HybridRecommendation)[2]? = some recC from rfl,
    show recC.itemID = "c" from rfl,
    show lookupA c3Feats "c" = some (c3Feat "c" "C") from rfl,
    show (c3Feat "c" "C").category = "C" from rfl,
    show recC.diversityScore = 0.2 from rfl,
    show (("C" : String) ∈ (["A", "B"] : List String)) = False from by simp,
    if_false]
  norm_num

theorem applyDivSpec :
    applyDiversityOptimization c3Feats [recB, recC, recA] = [recB, recA, recC] := by
  simp only [applyDiversityOptimization,
    show (([recB, recC, recA] : List HybridRecommendation).length ≤ 1) = False from by simp,
    if_false,
    show recB.itemID = "b" from rfl,
    show lookupA c3Feats "b" = some (c3Feat "b" "B") from rfl,
    show (c3Feat "b" "B").category = "B" from rfl,
    show (List.range' 1 (([recB, recC, recA] : List HybridRecommendation).length - 1)) = [1, 2]
      from rfl,
    divLoop, show (1 + 1 : Nat) = 2 from rfl, divBestSpec1,
    show swapL [recB, recC, recA] 1 2 = [recB, recA, recC] from rfl,
    show ([recB, recA, recC] : List HybridRecommendation)[1]? = some recA from rfl,
    show recA.itemID = "a" from rfl,
    show lookupA c3Feats "a" = some (c3Feat "a" "A") from rfl,
    show (c3Feat "a" "A").category = "A" from rfl,
    divBestSpec2,
    show swapL [recB, recA, recC] 2 2 = [recB, recA, recC] from rfl,
    show ([recB, recA, recC] : List HybridRecommendation)[2]? = some recC from rfl,
    show recC.itemID = "c" from rfl,
    show lookupA c3Feats "c" = some (c3Feat "c" "C") from rfl,
    List.append_nil, List.cons_append, List.nil_append, List.singleton_append]

/-- C3 counterexample: the code runs the greedy pass on the pre sort order and
sorts by final score afterwards, returning b, c, a; the pipeline the claim
describes (sort first, then greedy rebuild, greedy order preserved) returns
b, a, c.  The greedy order is therefore not what GenerateRecommendations
returns. -/
theorem c3_counterexample :
    (hybridPostRanking defaultHybridConfig c3Feats 3 c3Recs).map HybridRecommendation.itemID =
      ["b", "c", "a"] ∧
    (specDiversityPipeline c3Feats 3 c3Recs).map HybridRecommendation.itemID =
      ["b", "a", "c"] ∧
    (["b", "c", "a"] : List String) ≠ ["b", "a", "c"] := by
  refine ⟨?_, ?_, by decide⟩
  · simp only [hybridPostRanking, c3Recs,
      show defaultHybridConfig.enableDiversity = true from rfl, if_true, applyDivCode,
      sortCode,
      show List.take 3 ([recB, recC, recA] : List HybridRecommendation) = [recB, recC, recA]
        from rfl,
      List.map_cons, List.map_nil,
      show recA.itemID = "a" from rfl,
      show recB.itemID = "b" from rfl,
      show recC.itemID = "c" from rfl]
  · simp only [specDiversityPipeline, c3Recs, sortCode, applyDivSpec,
      show List.take 3 ([recB, recA, recC] : List HybridRecommendation) = [recB, recA, recC]
        from rfl,
      List.map_cons, List.map_nil,
      show recA.itemID = "a" from rfl,
      show recB.itemID = "b" from rfl,
      show recC.itemID = "c" from rfl]

/-- C3 amended: GenerateRecommendations applies the greedy diversity rebuild
to the merged candidates BEFORE sorting: the returned list is the final score
descending sort of the greedy pass output, truncated to topN, so the order the
caller sees is the score order, not the greedy order (which only determines
which candidates survive the pass). -/
theorem c3_amended (feats : List (String × ItemFeatures)) (n : Nat)
    (recs : List HybridRecommendation) :
    hybridPostRanking defaultHybridConfig feats n recs =
      (sortDescBy HybridRecommendation.score (applyDiversityOptimization feats recs)).take n ∧
    (hybridPostRanking defaultHybridConfig feats n recs).Pairwise
      (fun a b => b.score ≤ a.score) := by
  have h : hybridPostRanking defaultHybridConfig feats n recs =
      (sortDescBy HybridRecommendation.score (applyDiversityOptimization feats recs)).take n :=
    rfl
  refine ⟨h, ?_⟩
  rw [h]
  exact List.Pairwise.sublist (List.take_sublist _ _)
    (pairwise_sortDescBy HybridRecommendation.score _)

/-! ## C5: a user's own history never reaches that user's recommendations -/

theorem mem_keys_addScore {acc : List (String × ℝ)} {k i : String} {v : ℝ}
    (h : i ∈ keysOf (addScore acc k v)) : i ∈ keysOf acc ∨ i = k := by
  rw [addScore, keysOf_insertA] at h
  by_cases hk : k ∈ keysOf acc
  · rw [if_pos hk] at h
    exact Or.inl h
  · rw [if_neg hk] at h
    rcases List.mem_append.mp h with h1 | h2
    · exact Or.inl h1
    · exact Or.inr (List.mem_singleton.mp h2)

/-- Every step of the scoring loops either leaves the accumulator unchanged
(the item is already rated by the target user) or adds a key that the target
user has NOT rated; therefore a rated item never enters the score map. -/
theorem foldl_guard_not_mem {γ : Type} (userRatings : RatingRow) (i : String)
    (hi : (lookupA userRatings i).isSome = true)
    (l : List γ) (key : γ → String) (val : γ → ℝ) :
    ∀ acc : List (String × ℝ), i ∉ keysOf acc →
      i ∉ keysOf (l.foldl
        (fun acc2 g =>
          if (lookupA userRatings (key g)).isSome then acc2
          else addScore acc2 (key g) (val g))
        acc) := by
  induction l with
  | nil => exact fun acc h => h
  | cons g gs ih =>
    intro acc hacc
    simp only [List.foldl]
    by_cases hg : (lookupA userRatings (key g)).isSome = true
    · rw [if_pos hg]
      exact ih acc hacc
    · rw [if_neg hg]
      apply ih
      intro hmem
      rcases mem_keys_addScore hmem with h1 | h2
      · exact hacc h1
      · exact hg (h2 ▸ hi)

theorem userRec_keys_excluded (m : RatingMatrix) (userRatings : RatingRow) (i : String)
    (hi : (lookupA userRatings i).isSome = true) :
    ∀ (sus : List SimilarUser) (acc : List (String × ℝ)), i ∉ keysOf acc →
      i ∉ keysOf (sus.foldl
        (fun acc su =>
          ((lookupA m su.userID).getD []).foldl
            (fun acc2 p =>
              if (lookupA userRatings p.1).isSome then acc2
              else addScore acc2 p.1 (su.similarity * (p.2 : ℝ)))
            acc)
        acc) := by
  intro sus
  induction sus with
  | nil => exact fun acc h => h
  | cons su rest ih =>
    intro acc hacc
    simp only [List.foldl]
    apply ih
    exact foldl_guard_not_mem (γ := String × ℚ) userRatings i hi _ Prod.fst
      (fun p => su.similarity * (p.2 : ℝ)) acc hacc

theorem itemRec_keys_excluded (mI : RatingMatrix) (userRatings : RatingRow) (i : String)
    (hi : (lookupA userRatings i).isSome = true) :
    ∀ (qs : List (String × ℚ)) (acc : List (String × ℝ)), i ∉ keysOf acc →
      i ∉ keysOf (qs.foldl
        (fun acc q =>
          (findSimilarItems mI q.1).foldl
            (fun acc2 si =>
              if (lookupA userRatings si.itemID).isSome then acc2
              else addScore acc2 si.itemID (si.similarity * (q.2 : ℝ)))
            acc)
        acc) := by
  intro qs
  induction qs with
  | nil => exact fun acc h => h
  | cons q rest ih =>
    intro acc hacc
    simp only [List.foldl]
    apply ih
    exact foldl_guard_not_mem userRatings i hi _ SimilarItem.itemID
      (fun si => si.similarity * (q.2 : ℝ)) acc hacc

theorem keysOf_append {β : Type} (l1 l2 : List (String × β)) :
    keysOf (l1 ++ l2) = keysOf l1 ++ keysOf l2 := List.map_append _ l1 l2

theorem lookupA_insertA_self {β : Type} (l : List (String × β)) (k : String) (v : β) :
    lookupA (insertA l k v) k = some v := by
  induction l with
  | nil => simp [insertA, lookupA]
  | cons p rest ih =>
    by_cases h : p.1 = k
    · simp [insertA, lookupA, h]
    · simp [insertA, lookupA, h, ih]

theorem mem_keysOf_insertA_self {β : Type} (l : List (String × β)) (k : String) (v : β) :
    k ∈ keysOf (insertA l k v) := by
  rw [keysOf_insertA]
  by_cases h : k ∈ keysOf l
  · rwa [if_pos h]
  · rw [if_neg h]
    exact List.mem_append.mpr (Or.inr (List.mem_singleton.mpr rfl))

/-- Keys produced by one merge loop of mergeRecommendations come from the
accumulator or from the itemIDs of the processed list. -/
theorem mergeFold_keys (l : List Recommendation)
    (mk0 : Recommendation → HybridRecommendation)
    (upd : HybridRecommendation → Recommendation → HybridRecommendation) :
    ∀ (acc : List (String × HybridRecommendation)) (x : String),
      x ∈ keysOf (l.foldl
        (fun acc rec =>
          match lookupA acc rec.itemID with
          | none => acc ++ [(rec.itemID, mk0 rec)]
          | some hybridRec => insertA acc rec.itemID (upd hybridRec rec))
        acc) →
      x ∈ keysOf acc ∨ x ∈ l.map Recommendation.itemID := by
  induction l with
  | nil => exact fun acc x h => Or.inl h
  | cons rec rest ih =>
    intro acc x h
    simp only [List.foldl] at h
    cases hl : lookupA acc rec.itemID with
    | none =>
      rw [hl] at h
      simp only [List.map_cons, List.mem_cons]
      rcases ih _ x h with h1 | h2
      · rw [keysOf_append] at h1
        rcases List.mem_append.mp h1 with ha | hb
        · exact Or.inl ha
        · exact Or.inr (Or.inl (List.mem_singleton.mp hb))
      · exact Or.inr (Or.inr h2)
    | some hy =>
      rw [hl] at h
      simp only [List.map_cons, List.mem_cons]
      rcases ih _ x h with h1 | h2
      · rw [keysOf_insertA] at h1
        have hmem : rec.itemID ∈ keysOf acc := by
          rw [← lookupA_isSome_iff, hl]
          rfl
        rw [if_pos hmem] at h1
        exact Or.inl h1
      · exact Or.inr (Or.inr h2)

/-- C5: every item of the user's own interaction history is excluded from that
user's recommendations by the user based, item based and content based
algorithms, hence also from the hybrid candidate pool merged from the first
and third outputs; and AddUserRating does put the rated item into the history
the exclusions key on. -/
theorem c5_history_excluded (m mI : RatingMatrix) (cs : ContentState)
    (u i : String) (n : Nat)
    (hm : i ∈ keysOf ((lookupA m u).getD []))
    (hc : i ∈ keysOf ((lookupA cs.userItemHistory u).getD [])) :
    (∀ r ∈ UserBasedRecommend m u n, r.itemID ≠ i) ∧
    (∀ r ∈ ItemBasedRecommend m mI u n, r.itemID ≠ i) ∧
    (∀ r ∈ GenerateRecommendationsContent cs u n, r.itemID ≠ i) ∧
    (∀ x ∈ keysOf (mergeRecommendations (UserBasedRecommend m u n)
        (GenerateRecommendationsContent cs u n)), x ≠ i) ∧
    (∀ (c : CFState) (q : ℚ),
      i ∈ keysOf ((lookupA (AddUserRating c u i q).userItemMatrix u).getD [])) := by
  have hUser : ∀ r ∈ UserBasedRecommend m u n, r.itemID ≠ i := by
    intro r hr hri
    cases hl : lookupA m u with
    | none =>
      rw [UserBasedRecommend, hl] at hr
      simp at hr
    | some userRatings =>
      rw [hl] at hm
      have hi : (lookupA userRatings i).isSome = true :=
        (lookupA_isSome_iff userRatings i).mpr hm
      rw [UserBasedRecommend, hl] at hr
      simp only at hr
      have hr2 := (mem_sortDescBy _ _ _).mp (List.mem_of_mem_take hr)
      rcases List.mem_map.mp hr2 with ⟨p, hp, hpr⟩
      have hkey : i ∈ keysOf ((findSimilarUsers m u).foldl
          (fun acc su =>
            ((lookupA m su.userID).getD []).foldl
              (fun acc2 p =>
                if (lookupA userRatings p.1).isSome then acc2
                else addScore acc2 p.1 (su.similarity * (p.2 : ℝ)))
              acc)
          []) := by
        have : p.1 = i := by
          rw [← hri, ← hpr]
        rw [← this]
        exact List.mem_map_of_mem Prod.fst hp
      exact userRec_keys_excluded m userRatings i hi (findSimilarUsers m u) []
        (by simp [keysOf]) hkey
  have hItem : ∀ r ∈ ItemBasedRecommend m mI u n, r.itemID ≠ i := by
    intro r hr hri
    cases hl : lookupA m u with
    | none =>
      rw [ItemBasedRecommend, hl] at hr
      simp at hr
    | some userRatings =>
      rw [hl] at hm
      have hi : (lookupA userRatings i).isSome = true :=
        (lookupA_isSome_iff userRatings i).mpr hm
      rw [ItemBasedRecommend, hl] at hr
      simp only at hr
      have hr2 := (mem_sortDescBy _ _ _).mp (List.mem_of_mem_take hr)
      rcases List.mem_map.mp hr2 with ⟨p, hp, hpr⟩
      have hkey : i ∈ keysOf (userRatings.foldl
          (fun acc q =>
            (findSimilarItems mI q.1).foldl
              (fun acc2 si =>
                if (lookupA userRatings si.itemID).isSome then acc2
                else addScore acc2 si.itemID (si.similarity * (q.2 : ℝ)))
              acc)
          []) := by
        have : p.1 = i := by
          rw [← hri, ← hpr]
        rw [← this]
        exact List.mem_map_of_mem Prod.fst hp
      exact itemRec_keys_excluded mI userRatings i hi userRatings []
        (by simp [keysOf]) hkey
  have hContent : ∀ r ∈ GenerateRecommendationsContent cs u n, r.itemID ≠ i := by
    intro r hr hri
    cases hl : lookupA cs.userProfiles u with
    | none =>
      rw [GenerateRecommendationsContent, hl] at hr
      simp at hr
    | some profile =>
      have hih : (lookupA ((lookupA cs.userItemHistory u).getD []) i).isSome = true :=
        (lookupA_isSome_iff _ i).mpr hc
      rw [GenerateRecommendationsContent, hl] at hr
      simp only at hr
      have hr2 := (mem_sortDescBy _ _ _).mp (List.mem_of_mem_take hr)
      rcases List.mem_filterMap.mp hr2 with ⟨p, hp, hpr⟩
      by_cases hg : (lookupA ((lookupA cs.userItemHistory u).getD []) p.1).isSome = true
      · rw [if_pos hg] at hpr
        exact Option.noConfusion hpr
      · rw [if_neg hg] at hpr
        by_cases ht : ((contentSimilarityThreshold : ℚ) : ℝ) ≤ calculateSimilarity profile p.2
        · rw [if_pos ht] at hpr
          have : r.itemID = p.1 := by
            rw [← Option.some.inj hpr]
          rw [this] at hri
          rw [hri] at hg
          exact hg hih
        · rw [if_neg ht] at hpr
          exact Option.noConfusion hpr
  refine ⟨hUser, hItem, hContent, ?_, ?_⟩
  · intro x hx hxi
    rcases mergeFold_keys _ _ _ _ x hx with h1 | h2
    · rcases mergeFold_keys _ _ _ _ x h1 with h0 | h1a
      · simp [keysOf] at h0
      · rcases List.mem_map.mp h1a with ⟨r, hr, hrx⟩
        exact hUser r hr (hrx.trans hxi)
    · rcases List.mem_map.mp h2 with ⟨r, hr, hrx⟩
      exact hContent r hr (hrx.trans hxi)
  · intro c q
    rw [AddUserRating]
    simp only
    rw [lookupA_insertA_self]
    simp only [Option.getD_some]
    exact mem_keysOf_insertA_self _ i q

/-- One user who rated item i, with the same interaction recorded in the
content engine history. -/
def c5Matrix : RatingMatrix := [("u", [("i", 1)])]

def c5Content : ContentState :=
  { userProfiles := [], itemFeatures := [], userItemHistory := [("u", [("i", 1)])] }

theorem c5_witness :
    ("i" ∈ keysOf ((lookupA c5Matrix "u").getD [])) ∧
    ("i" ∈ keysOf ((lookupA c5Content.userItemHistory "u").getD [])) ∧
    ((∀ r ∈ UserBasedRecommend c5Matrix "u" 5, r.itemID ≠ "i") ∧
    (∀ r ∈ ItemBasedRecommend c5Matrix c5Matrix "u" 5, r.itemID ≠ "i") ∧
    (∀ r ∈ GenerateRecommendationsContent c5Content "u" 5, r.itemID ≠ "i") ∧
    (∀ x ∈ keysOf (mergeRecommendations (UserBasedRecommend c5Matrix "u" 5)
        (GenerateRecommendationsContent c5Content "u" 5)), x ≠ "i") ∧
    (∀ (c : CFState) (q : ℚ),
      "i" ∈ keysOf ((lookupA (AddUserRating c "u" "i" q).userItemMatrix "u").getD []))) :=
  ⟨by decide, by decide,
    c5_history_excluded c5Matrix c5Matrix c5Content "u" "i" 5 (by decide) (by decide)⟩

/-! ## C10: evaluation of UserBasedRecommend on a concrete matrix

User u rated the five common items 1..5; user v rated the same five items
identically (perfect correlation, so the similarity is exactly the 0.1
threshold after the 5/50 evidence scaling) plus two further items a and b,
both rated 3.  Both inherit the same recommendation score. -/

def ruRow : RatingRow := [("c1", 1), ("c2", 2), ("c3", 3), ("c4", 4), ("c5", 5)]

def rvRow : RatingRow :=
  [("c1", 1), ("c2", 2), ("c3", 3), ("c4", 4), ("c5", 5), ("a", 3), ("b", 3)]

def c10M : RatingMatrix := [("u", ruRow), ("v", rvRow)]

theorem c10_common : ratedBoth ruRow rvRow = ["c1", "c2", "c3", "c4", "c5"] := by decide

theorem c10_cov11 : covSum ruRow ruRow ["c1", "c2", "c3", "c4", "c5"] = 10 := by
  simp [covSum, meanOver, rateOf, lookupA, ruRow]
  norm_num

theorem c10_cov22 : covSum rvRow rvRow ["c1", "c2", "c3", "c4", "c5"] = 10 := by
  simp [covSum, meanOver, rateOf, lookupA, rvRow]
  norm_num

theorem c10_cov12 : covSum ruRow rvRow ["c1", "c2", "c3", "c4", "c5"] = 10 := by
  simp [covSum, meanOver, rateOf, lookupA, ruRow, rvRow]
  norm_num

theorem c10_pearson :
    pearsonCorrelation ruRow rvRow ["c1", "c2", "c3", "c4", "c5"] = 1/10 := by
  rw [pearsonCorrelation, if_neg (by norm_num), c10_cov11, c10_cov22, c10_cov12,
    if_neg (by norm_num)]
  have hsqrt : Real.sqrt (((10 * 10 : ℚ)) : ℝ) = 10 := by
    have h100 : (((10 * 10 : ℚ)) : ℝ) = (10 : ℝ) ^ 2 := by norm_num
    rw [h100, Real.sqrt_sq (by norm_num : (0 : ℝ) ≤ 10)]
  rw [hsqrt]
  norm_num [maxNeighbors]

theorem c10_sim : CalculateUserSimilarity c10M "u" "v" = 1/10 := by
  simp only [CalculateUserSimilarity,
    show lookupA c10M "u" = some ruRow from rfl,
    show lookupA c10M "v" = some rvRow from rfl,
    c10_common]
  rw [if_neg (by norm_num [minCommonItems]), c10_pearson]

theorem c10_fsu : findSimilarUsers c10M "u" = [⟨"v", 1/10⟩] := by
  simp only [findSimilarUsers,
    show ((keysOf c10M).filter (fun other => other ≠ "u")) = ["v"] from by decide,
    List.filterMap, c10_sim,
    show (((similarityThreshold : ℚ) : ℝ) ≤ 1/10) = True from by
      norm_num [similarityThreshold],
    if_true, sortDescBy, insertDescBy, List.take]

theorem c10_eval :
    UserBasedRecommend c10M "u" 10 = [⟨"b", 3/10⟩, ⟨"a", 3/10⟩] := by
  simp only [UserBasedRecommend,
    show lookupA c10M "u" = some ruRow from rfl,
    c10_fsu, List.foldl,
    show (⟨"v", (1/10 : ℝ)⟩ : SimilarUser).userID = "v" from rfl,
    show (⟨"v", (1/10 : ℝ)⟩ : SimilarUser).similarity = (1/10 : ℝ) from rfl,
    show (lookupA c10M "v").getD [] = rvRow from rfl, rvRow,
    show (lookupA ruRow "c1").isSome = true from rfl,
    show (lookupA ruRow "c2").isSome = true from rfl,
    show (lookupA ruRow "c3").isSome = true from rfl,
    show (lookupA ruRow "c4").isSome = true from rfl,
    show (lookupA ruRow "c5").isSome = true from rfl,
    show (lookupA ruRow "a").isSome = false from rfl,
    show (lookupA ruRow "b").isSome = false from rfl,
    if_true, if_false, Bool.false_eq_true, addScore,
    show lookupA ([] : List (String × ℝ)) "a" = none from rfl,
    insertA, List.map]
  simp [sortDescBy, insertDescBy, lookupA, List.take]
  norm_num

/-- C10 counterexample: with the concrete matrix c10M, items a and b receive
the same score 3/10 but the returned list is b before a (the order inherited
from the iteration order of the similar user's rating row), so equal score
items are NOT ordered by item identifier; over actual Go map iteration the
order is not even deterministic. -/
theorem c10_counterexample :
    UserBasedRecommend c10M "u" 10 = [⟨"b", 3/10⟩, ⟨"a", 3/10⟩] ∧
    ¬ ((UserBasedRecommend c10M "u" 10).Pairwise
        (fun x y => y.score < x.score ∨ x.itemID ≤ y.itemID)) := by
  refine ⟨c10_eval, ?_⟩
  rw [c10_eval]
  intro hp
  rcases List.pairwise_cons.mp hp with ⟨hhead, _⟩
  rcases hhead ⟨"a", 3/10⟩ (List.mem_singleton.mpr rfl) with h | h
  · exact absurd h (by norm_num)
  · refine absurd h ?_
    simp only at h ⊢
    simp [String.le_iff_toList_le]
    decide
